import Mathlib

/-!
# ipstack worker pool

A shallow embedding of the Go package `ipstack` (files `workerpool.go`,
`config.go`, `logger.go`, `client.go`, `response.go`) and theorems about it.

Conventions of the embedding

* A Go pointer or interface value that may be `nil` is an `Option`.
* A Go `error` is `Option Error`, `none` being `nil`.
* The collaborators (feedback port, logger, http transport) are stateful: their
  methods are functions on an abstract world state `σ`.
* Every call the pool makes on a collaborator is also appended to a trace of
  `Event`s, so that calls can be counted.
* A Go run-time panic ends the process; it is recorded in the field `fault`.
* Goroutines are interleaved by an explicit schedule (a list of `Choice`s).
* Go `int` values are `Int`; the only arithmetic is the loop counter of
  `NewWorkerPool`, which stays below `Workers`, so no overflow can occur.
* `make(chan string, n)` panics when `n` fails the range check of the runtime's
  `makechan`; the constants of that check depend on the platform and are a
  parameter (`GoRuntime`). Memory exhaustion past that check is not modelled:
  allocating a channel of a capacity in range and starting a goroutine succeed.
-/

namespace Ipstack

/-! ## response.go -/

/-- One entry of `Response.Location.Languages`. -/
structure Language where
  Code : String
  Name : String
  Native : String
  deriving DecidableEq, Repr

/-- The anonymous struct `Response.Location`. -/
structure Location where
  GeonameID : Int
  Capital : String
  Languages : List Language
  CountryFlag : String
  CountryFlagEmoji : String
  CountryFlagEmojiUnicode : String
  CallingCode : String
  IsEU : Bool
  deriving DecidableEq, Repr

/-- The anonymous struct `Response.Timezone`. -/
structure Timezone where
  ID : String
  CurrentTime : String
  GMTOffset : Int
  Code : String
  IsDaylightSaving : Bool
  deriving DecidableEq, Repr

/-- The anonymous struct `Response.Currency`. -/
structure Currency where
  Code : String
  Name : String
  Plural : String
  Symbol : String
  SymbolNative : String
  deriving DecidableEq, Repr

/-- The anonymous struct `Response.Connection`. -/
structure Connection where
  ASN : Int
  ISP : String
  deriving DecidableEq, Repr

/-- The anonymous struct `Response.Security`; a `*string` is an `Option String`. -/
structure Security where
  IsProxy : Bool
  ProxyType : Option String
  IsCrawler : Bool
  CrawlerName : Option String
  CrawlerType : Option String
  IsTor : Bool
  ThreatLevel : String
  ThreatType : Option String
  deriving DecidableEq, Repr

/-- The struct `Response`. The two `float32` fields are carried as their 32-bit patterns;
the pool never inspects them. -/
structure Response where
  IP : String
  Type_ : String
  ContinentCode : String
  ContinentName : String
  CountryCode : String
  CountryName : String
  RegionCode : String
  RegionName : String
  City : String
  ZIP : String
  Latitude : Nat
  Longitude : Nat
  Location : Location
  Timezone : Timezone
  Currency : Currency
  Connection : Connection
  Security : Security
  deriving DecidableEq, Repr

/-! ## Errors, events and the run state -/

/-- A non-nil Go `error` value, identified by its message. -/
structure Error where
  msg : String
  deriving DecidableEq, Repr

/-- A call made by the pool on one of its collaborators. -/
inductive Event where
  | fbExists (ip : String)
  | clientCheck (ip : String)
  | fbCreateResponse (ip : String) (r : Option Response)
  | logInfo (msg : String)
  | logError (msg : String) (err : Error)
  | wgDone
  deriving DecidableEq, Repr

/-- What an execution has done so far: the collaborators' state, the calls made on them, and
the run-time panic that ended the process, if any. -/
structure Run (σ : Type) where
  world : σ
  trace : List Event
  fault : Option String

/-! ## logger.go -/

/-- The interface `Logger`. -/
structure Logger (σ : Type) where
  Info : String → σ → σ
  Error : String → Error → σ → σ

/-- The type `devNullLogger`: both methods do nothing. -/
def devNullLogger (σ : Type) : Logger σ :=
  { Info := fun _ w => w, Error := fun _ _ w => w }

/-! ## config.go -/

/-- The struct `WorkerPoolConfig`. -/
structure WorkerPoolConfig (σ : Type) where
  QueueSize : Int
  Workers : Int
  Log : Option (Logger σ)

/-- The function `NewDefaultWorkerPoolConfig`. -/
def NewDefaultWorkerPoolConfig (σ : Type) : WorkerPoolConfig σ :=
  { QueueSize := 1000, Workers := 4, Log := some (devNullLogger σ) }

/-! ## client.go -/

/-- The part of `http.Client` that `Check` uses: `Get` answers with a body or an error. -/
structure HttpClient (σ : Type) where
  Get : String → σ → Except Error String × σ

/-- The struct `Client`. The field `jsonDecode` stands for the decoder of `encoding/json`
that `Check` applies to the body. -/
structure Client (σ : Type) where
  httpClient : HttpClient σ
  httpsEnabled : Bool
  accessKey : String
  jsonDecode : String → Except Error Response

/-- The method `Client.Check`: one call of the external service; returns the Go pair
`(r, err)` and the new world. -/
def Check {σ : Type} (c : Client σ) (ip : String) (w : σ) :
    (Option Response × Option Error) × σ :=
  let protocol := if c.httpsEnabled then "https://" else "http://"
  let url := protocol ++ "api.ipstack.com/" ++ ip ++ "?access_key=" ++ c.accessKey
    ++ "&hostname=1&language=en&output=json"
  match c.httpClient.Get url w with
  | (Except.error err, w1) => ((none, some err), w1)
  | (Except.ok body, w1) =>
    match c.jsonDecode body with
    | Except.error err => ((none, some err), w1)
    | Except.ok r => ((some r, none), w1)

/-! ## workerpool.go -/

def ErrFeedbackExistsFailed : String :=
  "ipstack: WorkerPool: unable to check if ip already exists during feedback loop"

def ErrAPIRequestFailed : String :=
  "ipstack: WorkerPool: error during api request"

def ErrFeedbackCreateResponseFailed : String :=
  "ipstack: WorkerPool: unable to create response during feedback loop"

/-- The interface `WorkerFeedback`. -/
structure WorkerFeedback (σ : Type) where
  Exists : String → σ → (Bool × Option Error) × σ
  CreateResponse : String → Option Response → σ → Option Error × σ

/-- A buffered `chan string`: the buffer, oldest element first, and its capacity. -/
structure Chan where
  buf : List String
  cap : Nat
  deriving DecidableEq, Repr

/-- The struct `WorkerPool`. `shutdown` tells whether the channel `shutdown` is closed
(nothing is ever sent on it); `wg` is the counter of the `sync.WaitGroup`. -/
structure WorkerPool (σ : Type) where
  unresolved : Chan
  shutdown : Bool
  wg : Int
  fb : WorkerFeedback σ
  c : Client σ
  Config : WorkerPoolConfig σ

/-- Where a worker goroutine stands: before its first statement, at the `select`, or holding an
ip it received and about to call `resolveEntry`. The code has no statement that leaves the
`for` loop, so there is no further position. -/
inductive WorkerPc where
  | start
  | selecting
  | resolving (ip : String)
  deriving DecidableEq, Repr

/-- A worker goroutine: the argument `i` of `worker` and its position. -/
structure Worker where
  id : Int
  pc : WorkerPc
  deriving DecidableEq, Repr

/-- The panic of calling a method on a nil interface value. -/
def nilDereference : String :=
  "runtime error: invalid memory address or nil pointer dereference"

/-- The call `wp.Config.Log.Info(msg)`. -/
def logInfo {σ : Type} (wp : WorkerPool σ) (msg : String) (s : Run σ) : Run σ :=
  match wp.Config.Log with
  | none => { s with fault := some nilDereference }
  | some lg => { s with world := lg.Info msg s.world, trace := s.trace ++ [Event.logInfo msg] }

/-- The call `wp.Config.Log.Error(msg, err)`. -/
def logError {σ : Type} (wp : WorkerPool σ) (msg : String) (err : Error) (s : Run σ) : Run σ :=
  match wp.Config.Log with
  | none => { s with fault := some nilDereference }
  | some lg =>
    { s with world := lg.Error msg err s.world, trace := s.trace ++ [Event.logError msg err] }

/-- The method `WorkerPool.resolveEntry`. -/
def resolveEntry {σ : Type} (wp : WorkerPool σ) (ip : String) (s : Run σ) : Run σ :=
  -- check if ip already exists
  match wp.fb.Exists ip s.world with
  | ((exists_, err), w1) =>
    let s1 : Run σ := { s with world := w1, trace := s.trace ++ [Event.fbExists ip] }
    match err with
    | some e => logError wp ErrFeedbackExistsFailed e s1
    | none =>
      -- ip already resolved -> nothing to do
      if exists_ then s1
      else
        -- ip not resolved -> query external API
        match Check wp.c ip s1.world with
        | ((r, err), w2) =>
          let s2 : Run σ := { s1 with world := w2, trace := s1.trace ++ [Event.clientCheck ip] }
          match err with
          | some e => logError wp ErrAPIRequestFailed e s2
          | none =>
            -- send response to feedback loop
            match wp.fb.CreateResponse ip r s2.world with
            | (err, w3) =>
              let s3 : Run σ :=
                { s2 with world := w3, trace := s2.trace ++ [Event.fbCreateResponse ip r] }
              match err with
              | some e => logError wp ErrFeedbackCreateResponseFailed e s3
              | none => s3

/-- The loop `for i := 0; i < config.Workers; i++` of `NewWorkerPool`, on the pair of the
WaitGroup counter and the goroutines started so far. Each round does `wg.Add(1)` and
`go wp.worker(i + 1)`. The first argument bounds the number of rounds. -/
def startWorkers (workers : Int) : Nat → Int → Int × List Worker → Int × List Worker
  | 0, _, acc => acc
  | fuel + 1, i, (wg, ws) =>
    if i < workers then
      startWorkers workers fuel (i + 1) (wg + 1, ws ++ [{ id := i + 1, pc := WorkerPc.start }])
    else (wg, ws)

/-- What a call of `NewWorkerPool` does: it panics, or it returns the Go pair `(wp, err)`
having started the listed goroutines. -/
inductive NewResult (σ : Type) where
  | panicked (msg : String)
  | returned (wp : Option (WorkerPool σ)) (err : Option Error) (started : List Worker)

/-- The panic of `make(chan string, n)` for an `n` that fails the range check. -/
def makechanOutOfRange : String := "makechan: size out of range"

/-- The constants of the Go runtime that `make(chan string, n)` compares `n` with: the width
of `uintptr` in bits, `maxAlloc`, `hchanSize` and the size of a `string` value in bytes. -/
structure GoRuntime where
  ptrBits : Nat
  maxAlloc : Nat
  hchanSize : Nat
  stringSize : Nat
  deriving DecidableEq, Repr

/-- The runtime constants on linux/amd64 (`hchanSize` as in Go 1.22; the general theorems
hold for every value of the constants). -/
def linuxAmd64 : GoRuntime :=
  { ptrBits := 64, maxAlloc := 2 ^ 48, hchanSize := 96, stringSize := 16 }

/-- The range check of the runtime's `makechan` for `make(chan string, size)`: with
`mem, overflow := math.MulUintptr(elem.size, uintptr(size))` the call panics when
`overflow || mem > maxAlloc-hchanSize || size < 0`. For a negative `size` the last test
decides, so `uintptr(size)` is only needed for `size >= 0`. -/
def chanSizeOutOfRange (rt : GoRuntime) (size : Int) : Bool :=
  let product := rt.stringSize * size.toNat
  let overflow := decide (2 ^ rt.ptrBits ≤ product)
  let mem := product % 2 ^ rt.ptrBits
  overflow || decide (rt.maxAlloc - rt.hchanSize < mem) || decide (size < 0)

/-- The function `NewWorkerPool`, run on the Go runtime `rt`. -/
def NewWorkerPool {σ : Type} (rt : GoRuntime) (config : Option (WorkerPoolConfig σ))
    (c : Option (Client σ)) (fb : Option (WorkerFeedback σ)) : NewResult σ :=
  match config with
  | none =>
    NewResult.returned none (some ⟨"ipstack: unable to create WorkerPool with nil config"⟩) []
  | some config =>
    match config.Log with
    | none =>
      NewResult.returned none
        (some ⟨"ipstack: unable to create WorkerPool with nil logger in config"⟩) []
    | some _ =>
      match c with
      | none =>
        NewResult.returned none
          (some ⟨"ipstack: unbale to create WorkerPool with nil client"⟩) []
      | some c =>
        match fb with
        | none =>
          NewResult.returned none
            (some ⟨"ipstack: unable to create WorkerPool with nil WorkerFeeback"⟩) []
        | some fb =>
          -- allocate WorkerPool
          if chanSizeOutOfRange rt config.QueueSize then
            NewResult.panicked makechanOutOfRange
          else
            let wp : WorkerPool σ :=
              { unresolved := { buf := [], cap := config.QueueSize.toNat }
                shutdown := false
                wg := 0
                fb := fb
                c := c
                Config := config }
            -- start worker goroutines
            match startWorkers config.Workers config.Workers.toNat 0 (wp.wg, []) with
            | (wg, ws) => NewResult.returned (some { wp with wg := wg }) none ws

/-- The function `strconv.Itoa`. -/
def Itoa (i : Int) : String := toString i

/-- The panic of `wg.Done()` when the counter would become negative. -/
def negativeWaitGroup : String := "sync: negative WaitGroup counter"

/-- The panic of closing a channel twice. -/
def closeOfClosed : String := "close of closed channel"

/-- The call `wp.wg.Done()`: the counter goes down by one, and the call panics if that makes
it negative. -/
def wgDone {σ : Type} (wg : Int) (s : Run σ) : Int × Run σ :=
  let s1 : Run σ := { s with trace := s.trace ++ [Event.wgDone] }
  if wg - 1 < 0 then (wg - 1, { s1 with fault := some negativeWaitGroup }) else (wg - 1, s1)

/-- The log line of a worker that took the shutdown case. -/
def shutdownLine (i : Int) : String :=
  "ipstack: WorkerPool: worker" ++ Itoa i ++ " received shutdown. Finishing"

/-- The log line of a worker that starts. -/
def startedLine (i : Int) : String :=
  "ipstack: WorkerPool: worker" ++ Itoa i ++ " started"

/-- One step of the goroutine `worker(i)` standing at `pc`; `none` when it cannot move.
At the `select`, `pickShutdown` names the case to take: the case `<-wp.shutdown` is ready
once the channel is closed, the case `<-wp.unresolved` when the buffer holds an ip. After
either case the `for` loop goes round again, so the position is the `select` again. -/
def worker {σ : Type} (wp : WorkerPool σ) (i : Int) (pc : WorkerPc) (pickShutdown : Bool)
    (s : Run σ) : Option (WorkerPc × WorkerPool σ × Run σ) :=
  match pc with
  | WorkerPc.start => some (WorkerPc.selecting, wp, logInfo wp (startedLine i) s)
  | WorkerPc.selecting =>
    if pickShutdown then
      if wp.shutdown then
        let s1 := logInfo wp (shutdownLine i) s
        match s1.fault with
        | some _ => some (WorkerPc.selecting, wp, s1)
        | none =>
          match wgDone wp.wg s1 with
          | (wg, s2) => some (WorkerPc.selecting, { wp with wg := wg }, s2)
      else none
    else
      match wp.unresolved.buf with
      | [] => none
      | ip :: rest =>
        some (WorkerPc.resolving ip,
          { wp with unresolved := { wp.unresolved with buf := rest } }, s)
  | WorkerPc.resolving ip => some (WorkerPc.selecting, wp, resolveEntry wp ip s)

/-- The method `WorkerPool.Queue` on a channel with room in its buffer; `none` when the
send has to wait. -/
def Queue {σ : Type} (wp : WorkerPool σ) (ip : String) : Option (WorkerPool σ) :=
  if wp.unresolved.buf.length < wp.unresolved.cap then
    some { wp with unresolved := { wp.unresolved with buf := wp.unresolved.buf ++ [ip] } }
  else none

/-- Where a call of `Shutdown` stands: before `close`, at `wg.Wait()`, at the loop test
`len(wp.unresolved) > 0`, at the receive `<-wp.unresolved`, about to call `resolveEntry`
on the ip received, or returned. -/
inductive ShutdownPc where
  | entry
  | waiting
  | drainCheck
  | receiving
  | resolving (ip : String)
  | returned
  deriving DecidableEq, Repr

/-- One step of the method `WorkerPool.Shutdown` standing at `pc`; `none` when it cannot
move (it waits, or it has returned). -/
def Shutdown {σ : Type} (wp : WorkerPool σ) (pc : ShutdownPc) (s : Run σ) :
    Option (ShutdownPc × WorkerPool σ × Run σ) :=
  match pc with
  | ShutdownPc.entry =>
    -- send shutdown signal
    if wp.shutdown then some (ShutdownPc.entry, wp, { s with fault := some closeOfClosed })
    else some (ShutdownPc.waiting, { wp with shutdown := true }, s)
  | ShutdownPc.waiting =>
    -- wait for all to finish
    if wp.wg = 0 then some (ShutdownPc.drainCheck, wp, s) else none
  | ShutdownPc.drainCheck =>
    -- finish remaining IPs in the buffer
    if wp.unresolved.buf.length > 0 then some (ShutdownPc.receiving, wp, s)
    else some (ShutdownPc.returned, wp, s)
  | ShutdownPc.receiving =>
    match wp.unresolved.buf with
    | [] => none
    | ip :: rest =>
      some (ShutdownPc.resolving ip,
        { wp with unresolved := { wp.unresolved with buf := rest } }, s)
  | ShutdownPc.resolving ip => some (ShutdownPc.drainCheck, wp, resolveEntry wp ip s)
  | ShutdownPc.returned => none

/-- The goroutine that uses the pool: it calls `Queue` on each ip of a list, in order, and
then calls `Shutdown`. -/
inductive CallerPc where
  | queueing (todo : List String)
  | shutdown (pc : ShutdownPc)
  deriving DecidableEq, Repr

/-- The whole program: the pool, what has happened so far, the worker goroutines and the
calling goroutine. -/
structure System (σ : Type) where
  wp : WorkerPool σ
  run : Run σ
  workers : List Worker
  caller : CallerPc

/-- Which goroutine moves next. `handoff k` is a send of the caller received at once by
worker `k` waiting at its `select` (the only way to send on a channel of capacity 0). -/
inductive Choice where
  | caller
  | worker (k : Nat) (pickShutdown : Bool)
  | handoff (k : Nat)
  deriving DecidableEq, Repr

/-- One step of the program; `none` when the chosen goroutine cannot move or the process
has been ended by a panic. -/
def step {σ : Type} (ch : Choice) (st : System σ) : Option (System σ) :=
  match st.run.fault with
  | some _ => none
  | none =>
    match ch with
    | Choice.caller =>
      match st.caller with
      | CallerPc.queueing (ip :: rest) =>
        match Queue st.wp ip with
        | none => none
        | some wp1 => some { st with wp := wp1, caller := CallerPc.queueing rest }
      | CallerPc.queueing [] =>
        match Shutdown st.wp ShutdownPc.entry st.run with
        | none => none
        | some (pc1, wp1, s1) =>
          some { st with wp := wp1, run := s1, caller := CallerPc.shutdown pc1 }
      | CallerPc.shutdown pc =>
        match Shutdown st.wp pc st.run with
        | none => none
        | some (pc1, wp1, s1) =>
          some { st with wp := wp1, run := s1, caller := CallerPc.shutdown pc1 }
    | Choice.worker k pickShutdown =>
      match st.workers.get? k with
      | none => none
      | some w =>
        match worker st.wp w.id w.pc pickShutdown st.run with
        | none => none
        | some (pc1, wp1, s1) =>
          some { st with wp := wp1, run := s1, workers := st.workers.set k { w with pc := pc1 } }
    | Choice.handoff k =>
      match st.caller, st.workers.get? k with
      | CallerPc.queueing (ip :: rest), some w =>
        if w.pc = WorkerPc.selecting ∧ st.wp.unresolved.buf = [] then
          some { st with
            workers := st.workers.set k { w with pc := WorkerPc.resolving ip }
            caller := CallerPc.queueing rest }
        else none
      | _, _ => none

/-- The program run under a schedule; `none` when some step of the schedule cannot be
taken. -/
def runSchedule {σ : Type} : List Choice → System σ → Option (System σ)
  | [], st => some st
  | ch :: rest, st =>
    match step ch st with
    | none => none
    | some st1 => runSchedule rest st1

/-- The program that constructs a pool with `NewWorkerPool` on linux/amd64 in the world `w`
and will then queue `ips` and shut down; `none` when the construction panics or returns an
error. -/
def boot {σ : Type} (config : Option (WorkerPoolConfig σ)) (c : Option (Client σ))
    (fb : Option (WorkerFeedback σ)) (ips : List String) (w : σ) : Option (System σ) :=
  match NewWorkerPool linuxAmd64 config c fb with
  | NewResult.returned (some wp) none ws =>
    some { wp := wp, run := { world := w, trace := [], fault := none }, workers := ws,
           caller := CallerPc.queueing ips }
  | _ => none

/-- The number of calls of `CreateResponse` in a trace. -/
def countCreateResponse : List Event → Nat
  | [] => 0
  | Event.fbCreateResponse _ _ :: t => countCreateResponse t + 1
  | _ :: t => countCreateResponse t

/-- The number of calls of `wg.Done` in a trace. -/
def countDone : List Event → Nat
  | [] => 0
  | Event.wgDone :: t => countDone t + 1
  | _ :: t => countDone t

/-- The number of times the line `msg` was passed to `Log.Info` in a trace. -/
def countInfo (msg : String) (t : List Event) : Nat :=
  t.count (Event.logInfo msg)

/-! ## Test doubles -/

/-- A record as the lookup may return it. -/
def sampleResponse : Response :=
  { IP := "1.1.1.1", Type_ := "ipv4", ContinentCode := "OC", ContinentName := "Oceania",
    CountryCode := "AU", CountryName := "Australia", RegionCode := "NSW",
    RegionName := "New South Wales", City := "Sydney", ZIP := "2000",
    Latitude := 0, Longitude := 0,
    Location := { GeonameID := 1, Capital := "Canberra", Languages := [],
                  CountryFlag := "", CountryFlagEmoji := "", CountryFlagEmojiUnicode := "",
                  CallingCode := "61", IsEU := false },
    Timezone := { ID := "", CurrentTime := "", GMTOffset := 0, Code := "",
                  IsDaylightSaving := false },
    Currency := { Code := "", Name := "", Plural := "", Symbol := "", SymbolNative := "" },
    Connection := { ASN := 0, ISP := "" },
    Security := { IsProxy := false, ProxyType := none, IsCrawler := false,
                  CrawlerName := none, CrawlerType := none, IsTor := false,
                  ThreatLevel := "low", ThreatType := none } }

/-- A feedback port whose state is the list of ips persisted so far: `Exists` looks the ip
up, `CreateResponse` adds it; neither fails. -/
def storeFeedback : WorkerFeedback (List String) :=
  { Exists := fun ip w => ((w.contains ip, none), w)
    CreateResponse := fun ip _ w => (none, w ++ [ip]) }

/-- A feedback port whose `Exists` fails with `e`. -/
def failingExists (e : Error) : WorkerFeedback (List String) :=
  { Exists := fun _ w => ((false, some e), w)
    CreateResponse := fun ip _ w => (none, w ++ [ip]) }

/-- A feedback port that knows no ip and whose `CreateResponse` fails with `e`. -/
def failingCreate (e : Error) : WorkerFeedback (List String) :=
  { Exists := fun _ w => ((false, none), w)
    CreateResponse := fun _ _ w => (some e, w) }

/-- A client whose request and decoding succeed with `sampleResponse`. -/
def goodClient : Client (List String) :=
  { httpClient := { Get := fun _ w => (Except.ok "body", w) }
    httpsEnabled := false
    accessKey := "key"
    jsonDecode := fun _ => Except.ok sampleResponse }

/-- A client whose request fails with `e`. -/
def failingClient (e : Error) : Client (List String) :=
  { httpClient := { Get := fun _ w => (Except.error e, w) }
    httpsEnabled := false
    accessKey := "key"
    jsonDecode := fun _ => Except.ok sampleResponse }

/-- A configuration with the no-op logger. -/
def testConfig (queueSize workers : Int) : WorkerPoolConfig (List String) :=
  { QueueSize := queueSize, Workers := workers, Log := some (devNullLogger (List String)) }

/-- A pool over the test doubles, as `NewWorkerPool` builds it for capacity 2 and one
worker. -/
def testPool (fb : WorkerFeedback (List String)) (c : Client (List String)) :
    WorkerPool (List String) :=
  { unresolved := { buf := [], cap := 2 }, shutdown := false, wg := 1, fb := fb, c := c,
    Config := testConfig 2 1 }

/-- A run that has done nothing yet, in the world `w`. -/
def freshRun (w : List String) : Run (List String) :=
  { world := w, trace := [], fault := none }

/-- The calls `resolveEntry` makes for the job `ip` when started in the world `w`. -/
def jobCalls {σ : Type} (wp : WorkerPool σ) (ip : String) (w : σ) : List Event :=
  (resolveEntry wp ip { world := w, trace := [], fault := none }).trace

/-- The world `resolveEntry` leaves for the job `ip` when started in the world `w`. -/
def jobWorld {σ : Type} (wp : WorkerPool σ) (ip : String) (w : σ) : σ :=
  (resolveEntry wp ip { world := w, trace := [], fault := none }).world

/-- The concatenation of the per-job call sequences of `resolveEntry` over the ips of a
queue, oldest first, each job started in the world the previous one left. -/
def drainCalls {σ : Type} (wp : WorkerPool σ) : List String → σ → List Event
  | [], _ => []
  | ip :: rest, w => jobCalls wp ip w ++ drainCalls wp rest (jobWorld wp ip w)

/-- The ips for which `Exists` is called in a trace, in order. -/
def existsCalls : List Event → List String
  | [] => []
  | Event.fbExists ip :: t => ip :: existsCalls t
  | _ :: t => existsCalls t

/-- The program state in which the caller, after queueing two ips on a pool built for no
worker and calling `Shutdown`, stands at the drain loop. -/
def drainStart : System (List String) :=
  { wp := { unresolved := { buf := ["1.1.1.1", "2.2.2.2"], cap := 2 }, shutdown := true,
            wg := 0, fb := storeFeedback, c := goodClient, Config := testConfig 2 0 }
    run := freshRun []
    workers := []
    caller := CallerPc.shutdown ShutdownPc.drainCheck }

/-- What the theorems on interleavings observe of a program state: the caller's position,
the workers, the queue, the WaitGroup counter, the ips for which `Exists` was called, the
number of `CreateResponse` calls, the number of `wg.Done` calls, and the panic. -/
def observe (st : System (List String)) :
    CallerPc × List Worker × List String × Int × List String × Nat × Nat × Option String :=
  (st.caller, st.workers, st.wp.unresolved.buf, st.wp.wg, existsCalls st.run.trace,
    countCreateResponse st.run.trace, countDone st.run.trace, st.run.fault)

/-- The workers with ids `1, ..., n`, each before its first statement. -/
def freshWorkers (n : Nat) : List Worker :=
  (List.range n).map (fun (j : Nat) => { id := (j : Int) + 1, pc := WorkerPc.start })

/-! ## Construction -/

theorem startWorkers_of_le (workers : Int) (fuel : Nat) (i : Int) (acc : Int × List Worker)
    (h : workers ≤ i) : startWorkers workers fuel i acc = acc := by
  cases fuel with
  | zero => rfl
  | succ fuel =>
    obtain ⟨wg, ws⟩ := acc
    simp [startWorkers, not_lt.mpr h]

/-- The loop started at round `i` with `k` rounds left to `n` runs exactly `k` rounds, whatever
fuel is left over. -/
theorem startWorkers_rounds (n : Nat) (extra : Nat) :
    ∀ (k i : Nat) (wg : Int) (ws : List Worker), i + k = n →
      startWorkers (n : Int) (k + extra) (i : Int) (wg, ws) =
        (wg + (k : Int),
          ws ++ (List.range' i k).map
            (fun (j : Nat) => { id := (j : Int) + 1, pc := WorkerPc.start })) := by
  intro k
  induction k with
  | zero =>
    intro i wg ws h
    have hle : (n : Int) ≤ (i : Int) := by omega
    simp [startWorkers_of_le _ _ _ _ hle]
  | succ k ih =>
    intro i wg ws h
    have hlt : (i : Int) < (n : Int) := by omega
    have hfuel : k + 1 + extra = (k + extra) + 1 := by omega
    have hnext := ih (i + 1) (wg + 1) (ws ++ [{ id := (i : Int) + 1, pc := WorkerPc.start }])
      (by omega)
    rw [hfuel]
    simp only [startWorkers, hlt, if_true]
    have hcast : ((i + 1 : Nat) : Int) = (i : Int) + 1 := by push_cast; rfl
    rw [hcast] at hnext
    rw [hnext]
    simp only [List.range'_succ, List.map_cons, List.append_assoc, List.singleton_append,
      Nat.cast_add, Nat.cast_one, Prod.mk.injEq, and_true]
    omega

theorem startWorkers_nat (n : Nat) :
    startWorkers (n : Int) (n : Int).toNat 0 (0, []) = ((n : Int), freshWorkers n) := by
  have h := startWorkers_rounds n 0 n 0 0 [] (by omega)
  simp only [Nat.add_zero, Nat.cast_zero, zero_add, List.nil_append] at h
  rw [Int.toNat_natCast, h, freshWorkers, List.range_eq_range']

theorem startWorkers_nonpos (workers : Int) (h : workers < 1) :
    startWorkers workers workers.toNat 0 (0, []) = (0, []) :=
  startWorkers_of_le workers _ 0 _ (by omega)

/-- A size that passes the range check of `makechan` is not negative. -/
theorem nonneg_of_chanSize_in_range (rt : GoRuntime) (size : Int)
    (h : chanSizeOutOfRange rt size = false) : 0 ≤ size := by
  simp only [chanSizeOutOfRange, Bool.or_eq_false_iff, decide_eq_false_iff_not, not_lt] at h
  exact h.2

/-- A negative size fails the range check of `makechan`. -/
theorem chanSizeOutOfRange_of_neg (rt : GoRuntime) (size : Int) (h : size < 0) :
    chanSizeOutOfRange rt size = true := by
  simp [chanSizeOutOfRange, h]

/-- With logger, client and feedback port present, `NewWorkerPool` panics when `QueueSize`
fails the range check of `make` and otherwise returns the pool described, having started
`max Workers 0` workers. -/
theorem NewWorkerPool_present {σ : Type} (rt : GoRuntime) (cfg : WorkerPoolConfig σ)
    (lg : Logger σ) (c : Client σ) (fb : WorkerFeedback σ) (hlog : cfg.Log = some lg) :
    NewWorkerPool rt (some cfg) (some c) (some fb) =
      if chanSizeOutOfRange rt cfg.QueueSize then NewResult.panicked makechanOutOfRange
      else
        NewResult.returned
          (some { unresolved := { buf := [], cap := cfg.QueueSize.toNat }
                  shutdown := false
                  wg := (startWorkers cfg.Workers cfg.Workers.toNat 0 (0, [])).1
                  fb := fb
                  c := c
                  Config := cfg })
          none (startWorkers cfg.Workers cfg.Workers.toNat 0 (0, [])).2 := by
  simp only [NewWorkerPool, hlog]

/-- C1, counterexample: with config, logger, client and feedback port all present but
`QueueSize = -1`, `NewWorkerPool` returns nothing, so no nil error either: it panics in
`make`. -/
theorem NewWorkerPool_negative_queue_panics :
    (testConfig (-1) 1).Log.isSome = true ∧
    NewWorkerPool linuxAmd64 (some (testConfig (-1) 1)) (some goodClient)
        (some storeFeedback) = NewResult.panicked makechanOutOfRange ∧
    ¬ ∃ wp ws, NewWorkerPool linuxAmd64 (some (testConfig (-1) 1)) (some goodClient)
        (some storeFeedback) = NewResult.returned wp none ws := by
  have h : NewWorkerPool linuxAmd64 (some (testConfig (-1) 1)) (some goodClient)
      (some storeFeedback) = NewResult.panicked makechanOutOfRange := by
    rw [NewWorkerPool_present linuxAmd64 (testConfig (-1) 1) (devNullLogger (List String))
      goodClient storeFeedback rfl]
    rw [if_pos (chanSizeOutOfRange_of_neg _ _ (by decide))]
  refine ⟨rfl, h, ?_⟩
  rintro ⟨wp, ws, hret⟩
  rw [h] at hret
  cases hret

/-- C1, amended: `NewWorkerPool` returns a non-nil error with a nil pool and no worker started
if and only if the config, its logger, the client or the feedback port is absent; the error
is the one of the first absent item in that order, the four messages are pairwise distinct;
and when all four are present and `QueueSize` passes the range check of `make` (it is not
negative and not too large for the runtime) it returns a pool and a nil error. -/
theorem NewWorkerPool_precondition_errors {σ : Type} (rt : GoRuntime)
    (config : Option (WorkerPoolConfig σ)) (c : Option (Client σ))
    (fb : Option (WorkerFeedback σ)) :
    ((∃ e, NewWorkerPool rt config c fb = NewResult.returned none (some e) []) ↔
      (config = none ∨ config.bind (fun cfg => cfg.Log) = none ∨ c = none ∨ fb = none)) ∧
    (config = none →
      NewWorkerPool rt config c fb = NewResult.returned none
        (some ⟨"ipstack: unable to create WorkerPool with nil config"⟩) []) ∧
    (∀ cfg, config = some cfg → cfg.Log = none →
      NewWorkerPool rt config c fb = NewResult.returned none
        (some ⟨"ipstack: unable to create WorkerPool with nil logger in config"⟩) []) ∧
    (∀ cfg lg, config = some cfg → cfg.Log = some lg → c = none →
      NewWorkerPool rt config c fb = NewResult.returned none
        (some ⟨"ipstack: unbale to create WorkerPool with nil client"⟩) []) ∧
    (∀ cfg lg cl, config = some cfg → cfg.Log = some lg → c = some cl → fb = none →
      NewWorkerPool rt config c fb = NewResult.returned none
        (some ⟨"ipstack: unable to create WorkerPool with nil WorkerFeeback"⟩) []) ∧
    List.Pairwise (fun a b => a ≠ b)
      ["ipstack: unable to create WorkerPool with nil config",
       "ipstack: unable to create WorkerPool with nil logger in config",
       "ipstack: unbale to create WorkerPool with nil client",
       "ipstack: unable to create WorkerPool with nil WorkerFeeback"] ∧
    (∀ cfg lg cl f, config = some cfg → cfg.Log = some lg → c = some cl → fb = some f →
      chanSizeOutOfRange rt cfg.QueueSize = false →
      ∃ wp ws, NewWorkerPool rt config c fb = NewResult.returned (some wp) none ws) ∧
    (∀ cfg lg cl f, config = some cfg → cfg.Log = some lg → c = some cl → fb = some f →
      chanSizeOutOfRange rt cfg.QueueSize = true →
      NewWorkerPool rt config c fb = NewResult.panicked makechanOutOfRange) := by
  refine ⟨?_, ?_, ?_, ?_, ?_, by decide, ?_, ?_⟩
  · cases config with
    | none => simp [NewWorkerPool]
    | some cfg =>
      cases hlog : cfg.Log with
      | none => simp [NewWorkerPool, hlog]
      | some lg =>
        cases c with
        | none => simp [NewWorkerPool, hlog]
        | some cl =>
          cases fb with
          | none => simp [NewWorkerPool, hlog]
          | some f =>
            rw [NewWorkerPool_present rt cfg lg cl f hlog]
            have hb : ((some cfg).bind fun cfg => cfg.Log) = some lg := hlog
            simp only [hb, reduceCtorEq, or_self, iff_false, not_exists]
            intro e
            split <;> simp
  · rintro rfl
    rfl
  · rintro cfg rfl hlog
    simp [NewWorkerPool, hlog]
  · rintro cfg lg rfl hlog rfl
    simp [NewWorkerPool, hlog]
  · rintro cfg lg cl rfl hlog rfl rfl
    simp [NewWorkerPool, hlog]
  · rintro cfg lg cl f rfl hlog rfl rfl hq
    rw [NewWorkerPool_present rt cfg lg cl f hlog, hq]
    exact ⟨_, _, rfl⟩
  · rintro cfg lg cl f rfl hlog rfl rfl hq
    rw [NewWorkerPool_present rt cfg lg cl f hlog, hq]
    rfl

/-- An instance of the preceding theorem: a present config without logger gives
the logger error, and the default configuration with client and feedback port gives a pool
on linux/amd64. -/
theorem NewWorkerPool_precondition_errors_witness :
    NewWorkerPool linuxAmd64 (some { QueueSize := 2, Workers := 1, Log := none })
        (some goodClient) (some storeFeedback) =
      NewResult.returned none
        (some ⟨"ipstack: unable to create WorkerPool with nil logger in config"⟩) [] ∧
    ∃ wp ws, NewWorkerPool linuxAmd64 (some (NewDefaultWorkerPoolConfig (List String)))
        (some goodClient) (some storeFeedback) = NewResult.returned (some wp) none ws :=
  ⟨(NewWorkerPool_precondition_errors linuxAmd64
      (some { QueueSize := 2, Workers := 1, Log := none })
      (some goodClient) (some storeFeedback)).2.2.1 _ rfl rfl,
   (NewWorkerPool_precondition_errors linuxAmd64
      (some (NewDefaultWorkerPoolConfig (List String)))
      (some goodClient) (some storeFeedback)).2.2.2.2.2.2.1 _ _ _ _ rfl rfl rfl rfl
      (by decide)⟩

/-- C9, counterexample: on linux/amd64, with a logger, a client and a feedback port,
`QueueSize = 2 ^ 44 >= 0` and `Workers = 1`, `NewWorkerPool` returns no pool and no error:
`make` panics, the size being out of range. -/
theorem NewWorkerPool_huge_queue_panics :
    (testConfig (2 ^ 44) 1).Log.isSome = true ∧ 0 ≤ (testConfig (2 ^ 44) 1).QueueSize ∧
    NewWorkerPool linuxAmd64 (some (testConfig (2 ^ 44) 1)) (some goodClient)
        (some storeFeedback) = NewResult.panicked makechanOutOfRange ∧
    ¬ ∃ wp err ws, NewWorkerPool linuxAmd64 (some (testConfig (2 ^ 44) 1)) (some goodClient)
        (some storeFeedback) = NewResult.returned wp err ws := by
  have h : NewWorkerPool linuxAmd64 (some (testConfig (2 ^ 44) 1)) (some goodClient)
      (some storeFeedback) = NewResult.panicked makechanOutOfRange := by
    rw [NewWorkerPool_present linuxAmd64 (testConfig (2 ^ 44) 1) (devNullLogger (List String))
      goodClient storeFeedback rfl]
    rw [if_pos (by decide)]
  refine ⟨rfl, by decide, h, ?_⟩
  rintro ⟨wp, err, ws, hret⟩
  rw [h] at hret
  cases hret

/-- C9, amended: with a logger, a `QueueSize` that passes the range check of `make` (so
`QueueSize >= 0` and not too large for the runtime), `Workers = n`, a client and a feedback
port, `NewWorkerPool` returns a nil error and a pool holding the given config, client and
feedback port, with an empty queue of capacity `QueueSize`, the shutdown channel open,
exactly the `n` workers with ids `1..n` started, and the WaitGroup counter equal to `n`. -/
theorem NewWorkerPool_success {σ : Type} (rt : GoRuntime) (cfg : WorkerPoolConfig σ)
    (lg : Logger σ) (c : Client σ) (fb : WorkerFeedback σ) (n : Nat)
    (hlog : cfg.Log = some lg) (hq : 0 ≤ cfg.QueueSize)
    (hr : chanSizeOutOfRange rt cfg.QueueSize = false) (hn : cfg.Workers = (n : Int)) :
    ∃ wp, NewWorkerPool rt (some cfg) (some c) (some fb) =
        NewResult.returned (some wp) none (freshWorkers n) ∧
      wp.Config = cfg ∧ wp.c = c ∧ wp.fb = fb ∧
      wp.unresolved.buf = [] ∧ (wp.unresolved.cap : Int) = cfg.QueueSize ∧
      wp.shutdown = false ∧ wp.wg = (n : Int) ∧
      (freshWorkers n).length = n ∧ (freshWorkers n).map (fun w => w.id) =
        (List.range n).map (fun (j : Nat) => (j : Int) + 1) ∧
      ∀ w ∈ freshWorkers n, w.pc = WorkerPc.start := by
  rw [NewWorkerPool_present rt cfg lg c fb hlog, hr, hn, startWorkers_nat]
  refine ⟨_, rfl, rfl, rfl, rfl, rfl, ?_, rfl, rfl, ?_, ?_, ?_⟩
  · exact Int.toNat_of_nonneg hq
  · simp [freshWorkers]
  · simp [freshWorkers]
  · intro w hw
    simp only [freshWorkers, List.mem_map] at hw
    obtain ⟨j, _, rfl⟩ := hw
    rfl

/-- An instance of the preceding theorem: queue capacity 2 and 3 workers on linux/amd64. -/
theorem NewWorkerPool_success_witness :
    ∃ wp, NewWorkerPool linuxAmd64 (some (testConfig 2 3)) (some goodClient)
        (some storeFeedback) = NewResult.returned (some wp) none (freshWorkers 3) ∧
      wp.Config = testConfig 2 3 ∧ wp.c = goodClient ∧ wp.fb = storeFeedback ∧
      wp.unresolved.buf = [] ∧ (wp.unresolved.cap : Int) = (testConfig 2 3).QueueSize ∧
      wp.shutdown = false ∧ wp.wg = ((3 : Nat) : Int) ∧
      (freshWorkers 3).length = 3 ∧ (freshWorkers 3).map (fun w => w.id) =
        (List.range 3).map (fun (j : Nat) => (j : Int) + 1) ∧
      ∀ w ∈ freshWorkers 3, w.pc = WorkerPc.start :=
  NewWorkerPool_success linuxAmd64 (testConfig 2 3) (devNullLogger (List String)) goodClient
    storeFeedback 3 rfl (by decide) (by decide) rfl

/-- C10, counterexample: with `Workers = 0` (and logger, client, feedback port present)
`NewWorkerPool` neither rejects nor clamps: it returns a nil error and a pool for which no
worker was started and whose WaitGroup counter is 0. -/
theorem NewWorkerPool_zero_workers_accepted :
    (testConfig 0 0).Workers < 1 ∧
    ∃ wp, NewWorkerPool linuxAmd64 (some (testConfig 0 0)) (some goodClient)
        (some storeFeedback) = NewResult.returned (some wp) none [] ∧
      wp.wg = 0 ∧ wp.Config.Workers = 0 := by
  refine ⟨by decide, ?_⟩
  rw [NewWorkerPool_present linuxAmd64 (testConfig 0 0) (devNullLogger (List String))
    goodClient storeFeedback rfl]
  rw [if_neg (by decide)]
  exact ⟨_, rfl, rfl, rfl⟩

/-- C10, amended: for a configuration with `Workers < 1` or `QueueSize < 0` (logger, client
and feedback port present) `NewWorkerPool` neither rejects nor clamps: when `QueueSize`
fails the range check of `make`, as every negative `QueueSize` does, it panics, returning
neither an error nor a pool; when `QueueSize` passes it (then `Workers < 1`), it returns a
nil error and a pool with the configuration unchanged, capacity `QueueSize`, no worker
started and the WaitGroup counter 0. -/
theorem NewWorkerPool_invalid_config {σ : Type} (rt : GoRuntime) (cfg : WorkerPoolConfig σ)
    (lg : Logger σ) (c : Client σ) (fb : WorkerFeedback σ) (hlog : cfg.Log = some lg)
    (hbad : cfg.Workers < 1 ∨ cfg.QueueSize < 0) :
    (cfg.QueueSize < 0 → chanSizeOutOfRange rt cfg.QueueSize = true) ∧
    (chanSizeOutOfRange rt cfg.QueueSize = true →
      NewWorkerPool rt (some cfg) (some c) (some fb) =
        NewResult.panicked makechanOutOfRange) ∧
    (chanSizeOutOfRange rt cfg.QueueSize = false →
      ∃ wp, NewWorkerPool rt (some cfg) (some c) (some fb) =
          NewResult.returned (some wp) none [] ∧
        wp.Config = cfg ∧ wp.wg = 0 ∧ (wp.unresolved.cap : Int) = cfg.QueueSize ∧
        wp.unresolved.buf = []) := by
  rw [NewWorkerPool_present rt cfg lg c fb hlog]
  refine ⟨chanSizeOutOfRange_of_neg rt cfg.QueueSize, ?_, ?_⟩
  · intro hout
    rw [hout]
    rfl
  · intro hin
    have hq : 0 ≤ cfg.QueueSize := nonneg_of_chanSize_in_range rt cfg.QueueSize hin
    have hw : cfg.Workers < 1 := by
      rcases hbad with h | h
      · exact h
      · omega
    rw [hin, startWorkers_nonpos cfg.Workers hw]
    exact ⟨_, rfl, rfl, rfl, Int.toNat_of_nonneg hq, rfl⟩

/-- An instance of the preceding theorem: `QueueSize = 5`, `Workers = -2` on linux/amd64. -/
theorem NewWorkerPool_invalid_config_witness :
    ((testConfig 5 (-2)).Workers < 1 ∨ (testConfig 5 (-2)).QueueSize < 0) ∧
    ∃ wp, NewWorkerPool linuxAmd64 (some (testConfig 5 (-2))) (some goodClient)
        (some storeFeedback) = NewResult.returned (some wp) none [] ∧
      wp.Config = testConfig 5 (-2) ∧ wp.wg = 0 ∧
      (wp.unresolved.cap : Int) = (testConfig 5 (-2)).QueueSize ∧ wp.unresolved.buf = [] :=
  ⟨Or.inl (by decide),
   (NewWorkerPool_invalid_config linuxAmd64 (testConfig 5 (-2)) (devNullLogger (List String))
      goodClient storeFeedback rfl (Or.inl (by decide))).2.2 (by decide)⟩

/-! ## One job -/

/-- A successful `Check` returns a record. -/
theorem Check_ok_some {σ : Type} (c : Client σ) (ip : String) (w w1 : σ) (r : Option Response)
    (h : Check c ip w = ((r, none), w1)) : ∃ rec, r = some rec := by
  unfold Check at h
  simp only at h
  split at h
  · simp at h
  · split at h
    · simp at h
    · simp only [Prod.mk.injEq, and_true] at h
      exact ⟨_, h.1.symm⟩

/-- C5: if `Exists(ip)` returns `(true, nil)`, then `resolveEntry` calls `Exists` once and does
nothing else: no `Check`, no `CreateResponse`, no log call; the world is the one `Exists`
left. -/
theorem resolveEntry_exists {σ : Type} (wp : WorkerPool σ) (ip : String) (s : Run σ) (w1 : σ)
    (h : wp.fb.Exists ip s.world = ((true, none), w1)) :
    resolveEntry wp ip s =
      { world := w1, trace := s.trace ++ [Event.fbExists ip], fault := s.fault } := by
  simp [resolveEntry, h]

/-- C7: if `Exists(ip)` returns an error `e`, with whatever boolean, then `resolveEntry` calls
`Exists` once, logs `ErrFeedbackExistsFailed` with `e` once and does nothing else; the worker
and the draining caller that process the job leave the pool, its queue included, as it
was. -/
theorem resolveEntry_exists_failed {σ : Type} (wp : WorkerPool σ) (lg : Logger σ) (ip : String)
    (s : Run σ) (b : Bool) (e : Error) (w1 : σ) (i : Int) (pick : Bool)
    (hlog : wp.Config.Log = some lg) (h : wp.fb.Exists ip s.world = ((b, some e), w1)) :
    resolveEntry wp ip s =
      { world := lg.Error ErrFeedbackExistsFailed e w1
        trace := s.trace ++ [Event.fbExists ip, Event.logError ErrFeedbackExistsFailed e]
        fault := s.fault } ∧
    worker wp i (WorkerPc.resolving ip) pick s =
      some (WorkerPc.selecting, wp, resolveEntry wp ip s) ∧
    Shutdown wp (ShutdownPc.resolving ip) s =
      some (ShutdownPc.drainCheck, wp, resolveEntry wp ip s) := by
  refine ⟨?_, rfl, rfl⟩
  simp [resolveEntry, h, logError, hlog]

/-- C6: if `Exists(ip)` returns `(false, nil)` and `Check(ip)` returns an error `e`, then
`resolveEntry` calls `Exists` once, `Check` once, logs `ErrAPIRequestFailed` with `e` once and
does nothing else: no `CreateResponse`, no second `Check`. -/
theorem resolveEntry_check_failed {σ : Type} (wp : WorkerPool σ) (lg : Logger σ) (ip : String)
    (s : Run σ) (r : Option Response) (e : Error) (w1 w2 : σ)
    (hlog : wp.Config.Log = some lg) (h : wp.fb.Exists ip s.world = ((false, none), w1))
    (hc : Check wp.c ip w1 = ((r, some e), w2)) :
    resolveEntry wp ip s =
      { world := lg.Error ErrAPIRequestFailed e w2
        trace := s.trace ++
          [Event.fbExists ip, Event.clientCheck ip, Event.logError ErrAPIRequestFailed e]
        fault := s.fault } := by
  simp [resolveEntry, h, hc, logError, hlog]

/-- C8: if `Exists(ip)` returns `(false, nil)` and `Check(ip)` succeeds with the record `r`,
then `resolveEntry` calls `CreateResponse` once, with `ip` and `r`; if that returns an error
`e` it logs `ErrFeedbackCreateResponseFailed` with `e` once, and if it succeeds it logs
nothing. -/
theorem resolveEntry_create {σ : Type} (wp : WorkerPool σ) (lg : Logger σ) (ip : String)
    (s : Run σ) (r : Response) (cerr : Option Error) (w1 w2 w3 : σ)
    (hlog : wp.Config.Log = some lg) (h : wp.fb.Exists ip s.world = ((false, none), w1))
    (hc : Check wp.c ip w1 = ((some r, none), w2))
    (hcr : wp.fb.CreateResponse ip (some r) w2 = (cerr, w3)) :
    resolveEntry wp ip s =
      match cerr with
      | none =>
        { world := w3
          trace := s.trace ++
            [Event.fbExists ip, Event.clientCheck ip, Event.fbCreateResponse ip (some r)]
          fault := s.fault }
      | some e =>
        { world := lg.Error ErrFeedbackCreateResponseFailed e w3
          trace := s.trace ++
            [Event.fbExists ip, Event.clientCheck ip, Event.fbCreateResponse ip (some r),
             Event.logError ErrFeedbackCreateResponseFailed e]
          fault := s.fault } := by
  cases cerr <;> simp [resolveEntry, h, hc, hcr, logError, hlog]

/-- An instance of the theorem on an ip that exists: the ip is already stored. -/
theorem resolveEntry_exists_witness :
    resolveEntry (testPool storeFeedback goodClient) "1.1.1.1" (freshRun ["1.1.1.1"]) =
      { world := ["1.1.1.1"], trace := [] ++ [Event.fbExists "1.1.1.1"], fault := none } :=
  resolveEntry_exists (testPool storeFeedback goodClient) "1.1.1.1" (freshRun ["1.1.1.1"])
    ["1.1.1.1"] (by decide)

/-- An instance of the theorem on a failing `Exists`: `Exists` fails with "db down". -/
theorem resolveEntry_exists_failed_witness :
    resolveEntry (testPool (failingExists ⟨"db down"⟩) goodClient) "1.1.1.1" (freshRun []) =
      { world := []
        trace := [] ++ [Event.fbExists "1.1.1.1",
          Event.logError ErrFeedbackExistsFailed ⟨"db down"⟩]
        fault := none } :=
  (resolveEntry_exists_failed (testPool (failingExists ⟨"db down"⟩) goodClient)
    (devNullLogger (List String)) "1.1.1.1" (freshRun []) false ⟨"db down"⟩ [] 1 false
    rfl rfl).1

/-- An instance of the theorem on a failing `Check`: the request fails with "timeout". -/
theorem resolveEntry_check_failed_witness :
    resolveEntry (testPool storeFeedback (failingClient ⟨"timeout"⟩)) "1.1.1.1" (freshRun []) =
      { world := []
        trace := [] ++ [Event.fbExists "1.1.1.1", Event.clientCheck "1.1.1.1",
          Event.logError ErrAPIRequestFailed ⟨"timeout"⟩]
        fault := none } :=
  resolveEntry_check_failed (testPool storeFeedback (failingClient ⟨"timeout"⟩))
    (devNullLogger (List String)) "1.1.1.1" (freshRun []) none ⟨"timeout"⟩ [] []
    rfl (by decide) rfl

/-- An instance of the theorem on `CreateResponse`: `CreateResponse` fails with "disk full". -/
theorem resolveEntry_create_witness :
    resolveEntry (testPool (failingCreate ⟨"disk full"⟩) goodClient) "1.1.1.1" (freshRun []) =
      { world := []
        trace := [] ++ [Event.fbExists "1.1.1.1", Event.clientCheck "1.1.1.1",
          Event.fbCreateResponse "1.1.1.1" (some sampleResponse),
          Event.logError ErrFeedbackCreateResponseFailed ⟨"disk full"⟩]
        fault := none } :=
  resolveEntry_create (testPool (failingCreate ⟨"disk full"⟩) goodClient)
    (devNullLogger (List String)) "1.1.1.1" (freshRun []) sampleResponse (some ⟨"disk full"⟩)
    [] [] [] rfl rfl rfl rfl

/-! ## The drain loop of Shutdown -/

/-- With a logger present `resolveEntry` only appends to the trace, by the calls of the job,
and never panics. -/
theorem resolveEntry_frame {σ : Type} (wp : WorkerPool σ) (lg : Logger σ) (ip : String)
    (s : Run σ) (hlog : wp.Config.Log = some lg) :
    resolveEntry wp ip s =
      { world := jobWorld wp ip s.world
        trace := s.trace ++ jobCalls wp ip s.world
        fault := s.fault } := by
  rcases hE : wp.fb.Exists ip s.world with ⟨⟨b, err⟩, w1⟩
  cases err with
  | some e => simp [jobWorld, jobCalls, resolveEntry, hE, logError, hlog]
  | none =>
    cases b with
    | true => simp [jobWorld, jobCalls, resolveEntry, hE]
    | false =>
      rcases hC : Check wp.c ip w1 with ⟨⟨r, err2⟩, w2⟩
      cases err2 with
      | some e => simp [jobWorld, jobCalls, resolveEntry, hE, hC, logError, hlog]
      | none =>
        rcases hR : wp.fb.CreateResponse ip r w2 with ⟨err3, w3⟩
        cases err3 <;> simp [jobWorld, jobCalls, resolveEntry, hE, hC, hR, logError, hlog]

theorem resolveEntry_fault {σ : Type} (wp : WorkerPool σ) (lg : Logger σ) (ip : String)
    (s : Run σ) (hlog : wp.Config.Log = some lg) :
    (resolveEntry wp ip s).fault = s.fault := by
  rw [resolveEntry_frame wp lg ip s hlog]

/-- The fold of `resolveEntry` over a queue makes the calls `drainCalls` and never panics. -/
theorem foldl_resolveEntry {σ : Type} (wp : WorkerPool σ) (lg : Logger σ)
    (hlog : wp.Config.Log = some lg) :
    ∀ (q : List String) (s : Run σ),
      (q.foldl (fun r ip => resolveEntry wp ip r) s).trace =
          s.trace ++ drainCalls wp q s.world ∧
        (q.foldl (fun r ip => resolveEntry wp ip r) s).fault = s.fault := by
  intro q
  induction q with
  | nil => intro s; simp [drainCalls]
  | cons ip rest ih =>
    intro s
    have h := ih (resolveEntry wp ip s)
    rw [resolveEntry_frame wp lg ip s hlog] at h
    simp only [List.foldl_cons, drainCalls]
    rw [resolveEntry_frame wp lg ip s hlog]
    simpa [List.append_assoc] using h

/-- Each job starts with one call of `Exists` for its ip and calls `Exists` for no other ip. -/
theorem existsCalls_jobCalls {σ : Type} (wp : WorkerPool σ) (ip : String) (w : σ) :
    existsCalls (jobCalls wp ip w) = [ip] := by
  rcases hE : wp.fb.Exists ip w with ⟨⟨b, err⟩, w1⟩
  cases err with
  | some e =>
    cases hl : wp.Config.Log <;> simp [jobCalls, resolveEntry, hE, logError, hl, existsCalls]
  | none =>
    cases b with
    | true => simp [jobCalls, resolveEntry, hE, existsCalls]
    | false =>
      rcases hC : Check wp.c ip w1 with ⟨⟨r, err2⟩, w2⟩
      cases err2 with
      | some e =>
        cases hl : wp.Config.Log <;>
          simp [jobCalls, resolveEntry, hE, hC, logError, hl, existsCalls]
      | none =>
        rcases hR : wp.fb.CreateResponse ip r w2 with ⟨err3, w3⟩
        cases err3 <;> cases hl : wp.Config.Log <;>
          simp [jobCalls, resolveEntry, hE, hC, hR, logError, hl, existsCalls]

theorem existsCalls_append (a b : List Event) :
    existsCalls (a ++ b) = existsCalls a ++ existsCalls b := by
  induction a with
  | nil => rfl
  | cons e t ih => cases e <;> simp [existsCalls, ih]

/-- The calls of `Exists` made by draining a queue are the ips of the queue, each once, in
queue order. -/
theorem existsCalls_drainCalls {σ : Type} (wp : WorkerPool σ) :
    ∀ (q : List String) (w : σ), existsCalls (drainCalls wp q w) = q := by
  intro q
  induction q with
  | nil => intro w; rfl
  | cons ip rest ih =>
    intro w
    simp [drainCalls, existsCalls_append, existsCalls_jobCalls, ih]

theorem runSchedule_append {σ : Type} (a b : List Choice) (st : System σ) :
    runSchedule (a ++ b) st = (runSchedule a st).bind (runSchedule b) := by
  induction a generalizing st with
  | nil => rfl
  | cons ch rest ih =>
    simp only [List.cons_append, runSchedule]
    cases step ch st with
    | none => rfl
    | some st1 => exact ih st1

/-- With no worker goroutine, only the caller can move, and no worker appears. -/
theorem step_no_workers {σ : Type} (ch : Choice) (st st1 : System σ) (hw : st.workers = [])
    (h : step ch st = some st1) : ch = Choice.caller ∧ st1.workers = [] := by
  unfold step at h
  split at h
  · cases h
  · cases ch with
    | caller =>
      refine ⟨rfl, ?_⟩
      dsimp only at h
      split at h
      · split at h
        · cases h
        · cases h; exact hw
      · split at h
        · cases h
        · cases h; exact hw
      · split at h
        · cases h
        · cases h; exact hw
    | worker k b => simp [hw] at h
    | handoff k =>
      dsimp only at h
      split at h
      · rename_i hget
        simp [hw] at hget
      · cases h

theorem runSchedule_no_workers {σ : Type} (sched : List Choice) :
    ∀ (st st1 : System σ), st.workers = [] → runSchedule sched st = some st1 →
      (∀ ch ∈ sched, ch = Choice.caller) ∧ st1.workers = [] := by
  induction sched with
  | nil =>
    intro st st1 hw h
    cases h
    exact ⟨by simp, hw⟩
  | cons ch rest ih =>
    intro st st1 hw h
    simp only [runSchedule] at h
    cases hs : step ch st with
    | none => rw [hs] at h; cases h
    | some st2 =>
      rw [hs] at h
      obtain ⟨hch, hw2⟩ := step_no_workers ch st st2 hw hs
      obtain ⟨hrest, hw1⟩ := ih st2 st1 hw2 h
      refine ⟨?_, hw1⟩
      intro c hc
      rcases List.mem_cons.mp hc with rfl | hc
      · exact hch
      · exact hrest c hc

/-- One round of the drain loop: test, receive, `resolveEntry`. -/
theorem drain_round {σ : Type} (wp : WorkerPool σ) (ip : String) (rest : List String)
    (cap : Nat) (s : Run σ) (ws : List Worker) (hf : s.fault = none) :
    runSchedule [Choice.caller, Choice.caller, Choice.caller]
        { wp := { wp with unresolved := { buf := ip :: rest, cap := cap } }, run := s,
          workers := ws, caller := CallerPc.shutdown ShutdownPc.drainCheck } =
      some { wp := { wp with unresolved := { buf := rest, cap := cap } },
             run := resolveEntry wp ip s, workers := ws,
             caller := CallerPc.shutdown ShutdownPc.drainCheck } := by
  simp [runSchedule, step, Shutdown, hf]
  rfl

/-- The drain loop on a queue `q`, with no worker goroutine: after `3 * |q| + 1` steps of
the caller `Shutdown` has returned, the queue is empty and the run is the fold of
`resolveEntry` over `q`. -/
theorem drain_loop {σ : Type} (wp : WorkerPool σ) (lg : Logger σ)
    (hlog : wp.Config.Log = some lg) (cap : Nat) :
    ∀ (q : List String) (s : Run σ), s.fault = none →
      runSchedule (List.replicate (3 * q.length + 1) Choice.caller)
          { wp := { wp with unresolved := { buf := q, cap := cap } }, run := s,
            workers := [], caller := CallerPc.shutdown ShutdownPc.drainCheck } =
        some { wp := { wp with unresolved := { buf := [], cap := cap } },
               run := q.foldl (fun r ip => resolveEntry wp ip r) s, workers := [],
               caller := CallerPc.shutdown ShutdownPc.returned } := by
  intro q
  induction q with
  | nil =>
    intro s hf
    simp [runSchedule, step, Shutdown, hf]
  | cons ip rest ih =>
    intro s hf
    have hlen : 3 * (ip :: rest).length + 1 = 3 + (3 * rest.length + 1) := by
      simp only [List.length_cons]; omega
    have hsplit : List.replicate (3 * (ip :: rest).length + 1) Choice.caller =
        [Choice.caller, Choice.caller, Choice.caller] ++
          List.replicate (3 * rest.length + 1) Choice.caller := by
      rw [hlen, List.replicate_add]
      rfl
    rw [hsplit, runSchedule_append, drain_round wp ip rest cap s [] hf]
    simp only [Option.bind_some, List.foldl_cons]
    exact ih (resolveEntry wp ip s) (by rw [resolveEntry_fault wp lg ip s hlog, hf])

/-- C4: let the caller stand at the drain loop of `Shutdown` with the ips `q` left in the
queue, no worker goroutine alive, and a logger present. Then the loop terminates: after
`3 * |q| + 1` steps of the caller `Shutdown` has returned and the queue is empty. The run
is then the fold of `resolveEntry` over `q` in queue order, so that the calls made are the
concatenation `drainCalls` of the per-job call sequences, `Exists` is called for exactly
the ips of `q`, each once and in order, and nothing panics. Every step that can be taken
on the way is a step of the caller, and after the return no step is left. -/
theorem Shutdown_drains_queue {σ : Type} (st : System σ) (lg : Logger σ) (q : List String)
    (hw : st.workers = []) (hpc : st.caller = CallerPc.shutdown ShutdownPc.drainCheck)
    (hq : st.wp.unresolved.buf = q) (hlog : st.wp.Config.Log = some lg)
    (hf : st.run.fault = none) :
    ∃ st1, runSchedule (List.replicate (3 * q.length + 1) Choice.caller) st = some st1 ∧
      st1.caller = CallerPc.shutdown ShutdownPc.returned ∧
      st1.wp.unresolved.buf = [] ∧
      st1.run = q.foldl (fun r ip => resolveEntry st.wp ip r) st.run ∧
      st1.run.trace = st.run.trace ++ drainCalls st.wp q st.run.world ∧
      existsCalls (drainCalls st.wp q st.run.world) = q ∧
      st1.run.fault = none ∧
      (∀ sched st2, runSchedule sched st = some st2 → ∀ ch ∈ sched, ch = Choice.caller) ∧
      (∀ ch, step ch st1 = none) := by
  obtain ⟨wp, run, workers, caller⟩ := st
  obtain ⟨⟨buf, cap⟩, sd, wg, fb, c, cfg⟩ := wp
  simp only at hw hpc hq hlog hf
  subst hw hpc hq
  have hmain := drain_loop
    ({ unresolved := { buf := buf, cap := cap }, shutdown := sd, wg := wg, fb := fb, c := c,
       Config := cfg } : WorkerPool σ) lg hlog cap buf run hf
  have hfold := foldl_resolveEntry
    ({ unresolved := { buf := buf, cap := cap }, shutdown := sd, wg := wg, fb := fb, c := c,
       Config := cfg } : WorkerPool σ) lg hlog buf run
  refine ⟨_, hmain, rfl, rfl, rfl, hfold.1, existsCalls_drainCalls _ _ _, ?_, ?_, ?_⟩
  · exact hfold.2.trans hf
  · intro sched st2 h
    exact (runSchedule_no_workers sched _ st2 rfl h).1
  · intro ch
    cases ch <;> simp [step, Shutdown, hfold.2.trans hf]

/-- An instance of the preceding theorem: two ips left in the queue of a pool built for no
worker. -/
theorem Shutdown_drains_queue_witness :
    ∃ st1, runSchedule (List.replicate (3 * ["1.1.1.1", "2.2.2.2"].length + 1) Choice.caller)
        drainStart = some st1 ∧
      st1.caller = CallerPc.shutdown ShutdownPc.returned ∧
      st1.wp.unresolved.buf = [] ∧
      st1.run = ["1.1.1.1", "2.2.2.2"].foldl (fun r ip => resolveEntry drainStart.wp ip r)
        drainStart.run ∧
      st1.run.trace = drainStart.run.trace ++
        drainCalls drainStart.wp ["1.1.1.1", "2.2.2.2"] drainStart.run.world ∧
      existsCalls (drainCalls drainStart.wp ["1.1.1.1", "2.2.2.2"] drainStart.run.world) =
        ["1.1.1.1", "2.2.2.2"] ∧
      st1.run.fault = none ∧
      (∀ sched st2, runSchedule sched drainStart = some st2 →
        ∀ ch ∈ sched, ch = Choice.caller) ∧
      (∀ ch, step ch st1 = none) :=
  Shutdown_drains_queue drainStart (devNullLogger (List String)) ["1.1.1.1", "2.2.2.2"]
    rfl rfl rfl rfl rfl

/-! ## Interleavings of the workers and the caller -/

/-- The shutdown case of the `select` leaves the worker at the `select`: with the channel
closed and a logger present, the worker logs its line, calls `wg.Done`, and stands where it
stood, so the case can be taken again. -/
theorem worker_shutdown_case {σ : Type} (wp : WorkerPool σ) (lg : Logger σ) (i : Int)
    (s : Run σ) (hlog : wp.Config.Log = some lg) (hclosed : wp.shutdown = true)
    (hf : s.fault = none) :
    ∃ wp1 s1, worker wp i WorkerPc.selecting true s = some (WorkerPc.selecting, wp1, s1) ∧
      wp1.shutdown = true ∧ wp1.wg = wp.wg - 1 ∧ wp1.Config = wp.Config ∧
      s1.trace = s.trace ++ [Event.logInfo (shutdownLine i), Event.wgDone] := by
  by_cases hneg : wp.wg - 1 < 0
  · simp only [worker, hclosed, logInfo, hlog, hf, wgDone, hneg, if_true]
    exact ⟨_, _, rfl, rfl, rfl, rfl, by simp⟩
  · simp only [worker, hclosed, logInfo, hlog, hf, wgDone, hneg, if_true, if_false]
    exact ⟨_, _, rfl, rfl, rfl, rfl, by simp⟩

/-- C2, evaluation: a pool with one worker and no job is constructed and shut down. When the
worker has taken the shutdown case once, it has logged its shutdown line once and called
`wg.Done` once, but it still stands at the `select`. So it takes the shutdown case again:
the line is logged a second time, `wg.Done` is called a second time and panics on the
negative counter. This happens as well after `Shutdown` has returned. -/
theorem worker_repeats_shutdown_case :
    ((boot (some (testConfig 0 1)) (some goodClient) (some storeFeedback) [] []).bind
        (runSchedule [Choice.caller, Choice.worker 0 true, Choice.worker 0 true])).map
      (fun st => (st.workers, st.wp.wg, countInfo (shutdownLine 1) st.run.trace,
        countDone st.run.trace, st.run.fault)) =
      some ([{ id := 1, pc := WorkerPc.selecting }], 0, 1, 1, none) ∧
    ((boot (some (testConfig 0 1)) (some goodClient) (some storeFeedback) [] []).bind
        (runSchedule [Choice.caller, Choice.worker 0 true, Choice.worker 0 true,
          Choice.worker 0 true])).map
      (fun st => (st.workers, st.wp.wg, countInfo (shutdownLine 1) st.run.trace,
        countDone st.run.trace, st.run.fault)) =
      some ([{ id := 1, pc := WorkerPc.selecting }], -1, 2, 2, some negativeWaitGroup) ∧
    ((boot (some (testConfig 0 1)) (some goodClient) (some storeFeedback) [] []).bind
        (runSchedule [Choice.caller, Choice.worker 0 true, Choice.worker 0 true,
          Choice.caller, Choice.caller, Choice.worker 0 true])).map
      (fun st => (st.caller, st.wp.wg, countInfo (shutdownLine 1) st.run.trace,
        countDone st.run.trace, st.run.fault)) =
      some (CallerPc.shutdown ShutdownPc.returned, -1, 2, 2, some negativeWaitGroup) :=
  ⟨by decide, by decide, by decide⟩

/-- C3, evaluation. First conjunct, the scenario of the specification (capacity 2, one
worker, three ips, `Exists` false, lookup and persist succeeding): under the schedule given,
`Shutdown` has returned while `Exists` has been called for two of the three ips only and
`CreateResponse` twice; the third ip was taken from the queue by the worker, which went on
looping after its shutdown case, and is not processed yet. Second conjunct, two workers and
one ip: `Shutdown` has returned, the ip was taken by worker 1 and never processed, and the
second shutdown case of worker 2 has ended the process by a panic, so that no step is left. -/
theorem Shutdown_returns_before_all_jobs_processed :
    ((boot (some (testConfig 2 1)) (some goodClient) (some storeFeedback)
          ["1.1.1.1", "2.2.2.2", "3.3.3.3"] []).bind
        (runSchedule [Choice.worker 0 false, Choice.caller, Choice.caller,
          Choice.worker 0 false, Choice.caller, Choice.caller, Choice.worker 0 false,
          Choice.worker 0 true, Choice.caller, Choice.caller, Choice.caller, Choice.caller,
          Choice.worker 0 false, Choice.caller])).map observe =
      some (CallerPc.shutdown ShutdownPc.returned,
        [{ id := 1, pc := WorkerPc.resolving "3.3.3.3" }], [], 0,
        ["1.1.1.1", "2.2.2.2"], 2, 1, none) ∧
    ((boot (some (testConfig 2 2)) (some goodClient) (some storeFeedback) ["1.1.1.1"] []).bind
        (runSchedule [Choice.worker 0 false, Choice.worker 1 false, Choice.caller,
          Choice.caller, Choice.worker 0 true, Choice.worker 1 true, Choice.caller,
          Choice.worker 0 false, Choice.caller, Choice.worker 1 true])).map observe =
      some (CallerPc.shutdown ShutdownPc.returned,
        [{ id := 1, pc := WorkerPc.resolving "1.1.1.1" }, { id := 2, pc := WorkerPc.selecting }],
        [], -1, [], 0, 3, some negativeWaitGroup) ∧
    (∀ ch st, (boot (some (testConfig 2 2)) (some goodClient) (some storeFeedback) ["1.1.1.1"]
          []).bind
        (runSchedule [Choice.worker 0 false, Choice.worker 1 false, Choice.caller,
          Choice.caller, Choice.worker 0 true, Choice.worker 1 true, Choice.caller,
          Choice.worker 0 false, Choice.caller, Choice.worker 1 true]) = some st →
      step ch st = none) := by
  refine ⟨rfl, rfl, ?_⟩
  intro ch st h
  have hf : (Option.map (fun s => s.run.fault) (some st)) = some (some negativeWaitGroup) := by
    rw [← h]
    decide
  simp only [Option.map_some', Option.some.injEq] at hf
  simp [step, hf]

end Ipstack
